import Mathlib

/-!
Verification development for the go-tdlib client core: the authorization
state machine (client/authorization.go, plus an older variant of the same
file shipped in the repository), the dispatch loop, the correlation engine
and the listener registry (client/client.go).

Go code is embedded shallowly: pure control flow becomes Lean functions;
the environment's choices (the state reported by the remote engine, the
error result of a corrective call, the firing of the context's Done
channel) become explicit event parameters; side effects that the claims
talk about (client.Close, the deferred handler Close, the settling sleep,
the corrective calls issued) are recorded in an explicit trace record.
-/

set_option autoImplicit false

namespace GoTdlib

/-- The closed, remote-defined set of authorization states observed by the
client (the Type...AuthorizationState constants of the tdlib API). -/
inductive AuthStateType
  | waitTdlibParameters
  | waitEncryptionKey
  | waitPhoneNumber
  | waitEmailAddress
  | waitEmailCode
  | waitCode
  | waitOtherDeviceConfirmation
  | waitRegistration
  | waitPassword
  | ready
  | loggingOut
  | closing
  | closed
deriving DecidableEq, Repr

/-- Errors that flow through the embedded code. `notSupportedAuthorizationState`
is the package-level ErrNotSupportedAuthorizationState; `responseCatchingTimeout`
is the error built by Send on timeout; `authorizationTimeoutFinished` is the
error built by the older Authorize variant on context cancellation;
`callError n` stands for an arbitrary non-nil error returned by a tdlib call
or by the JSON decoder (opaque to the code under study). -/
inductive GoError
  | notSupportedAuthorizationState
  | responseCatchingTimeout
  | authorizationTimeoutFinished
  | callError (n : Nat)
deriving DecidableEq, Repr

/-- The corrective tdlib calls that the two authorizer strategies can issue
from Handle. -/
inductive CorrectiveCall
  | setTdlibParameters
  | setAuthenticationPhoneNumber
  | checkAuthenticationCode
  | checkAuthenticationPassword
  | checkDatabaseEncryptionKey
  | checkAuthenticationBotToken
deriving DecidableEq, Repr

/-- What one invocation of a Handle method does after sending the state on
its State channel: issue exactly one corrective call and return that call's
error, return ErrNotSupportedAuthorizationState, or return nil. -/
inductive HandleStep
  | call (c : CorrectiveCall)
  | unsupported
  | ok
deriving DecidableEq, Repr

/-- clientAuthorizer.Handle from client/authorization.go: the switch on
state.AuthorizationStateType(). The Go switch has no case for
waitEncryptionKey, so that state falls through to the trailing
`return ErrNotSupportedAuthorizationState`, exactly like the default. -/
def clientAuthorizerHandle : AuthStateType → HandleStep
  | .waitTdlibParameters => .call .setTdlibParameters
  | .waitPhoneNumber => .call .setAuthenticationPhoneNumber
  | .waitEmailAddress => .unsupported
  | .waitEmailCode => .unsupported
  | .waitCode => .call .checkAuthenticationCode
  | .waitOtherDeviceConfirmation => .unsupported
  | .waitRegistration => .unsupported
  | .waitPassword => .call .checkAuthenticationPassword
  | .ready => .ok
  | .loggingOut => .unsupported
  | .closing => .ok
  | .closed => .ok
  | .waitEncryptionKey => .unsupported

/-- clientAuthorizer.Handle from the older variant of authorization.go
(src/unnamed/part_000): it has an explicit waitEncryptionKey case issuing
CheckDatabaseEncryptionKey, and no cases for the email / other-device
states, which fall through to the trailing unsupported return. -/
def clientAuthorizerHandleLegacy : AuthStateType → HandleStep
  | .waitTdlibParameters => .call .setTdlibParameters
  | .waitEncryptionKey => .call .checkDatabaseEncryptionKey
  | .waitPhoneNumber => .call .setAuthenticationPhoneNumber
  | .waitCode => .call .checkAuthenticationCode
  | .waitRegistration => .unsupported
  | .waitPassword => .call .checkAuthenticationPassword
  | .ready => .ok
  | .loggingOut => .unsupported
  | .closing => .ok
  | .closed => .ok
  | .waitEmailAddress => .unsupported
  | .waitEmailCode => .unsupported
  | .waitOtherDeviceConfirmation => .unsupported

/-- The error Handle returns, given what the switch selected and the
environment-chosen result of the corrective call (none = the call
succeeded). -/
def handleError (step : HandleStep) (callResult : Option GoError) : Option GoError :=
  match step with
  | .call _ => callResult
  | .unsupported => some .notSupportedAuthorizationState
  | .ok => none

/-- The corrective calls issued by one Handle invocation (at most one). -/
def callsOfStep : HandleStep → List CorrectiveCall
  | .call c => [c]
  | .unsupported => []
  | .ok => []

/-- One iteration of the select in Authorize, as seen by the loop body:
either the 1 ms timer fired and GetAuthorizationState succeeded (tickOk,
carrying the observed state and the environment-chosen error of the
corrective call Handle issues on this tick, if any), or the timer fired
and GetAuthorizationState itself failed (tickErr), or the handler
context's Done channel fired first (cancelled). The select resolves the
race to exactly one arm per iteration. -/
inductive AuthEvent
  | tickOk (s : AuthStateType) (callResult : Option GoError)
  | tickErr (e : GoError)
  | cancelled
deriving DecidableEq, Repr

/-- Observable side effects accumulated by one run of Authorize:
how many times client.Close was called, how many times the deferred
authorizationStateHandler.Close ran, how many settling sleeps were
performed, and which corrective calls Handle issued, in order. -/
structure AuthTrace where
  clientCloseCount : Nat
  handlerCloseCount : Nat
  sleepCount : Nat
  calls : List CorrectiveCall
deriving DecidableEq, Repr

/-- The empty effect trace at entry to Authorize. -/
def AuthTrace.init : AuthTrace := ⟨0, 0, 0, []⟩

/-- Outcome of running Authorize against a finite event list: either the
function returned (with a nil or non-nil error), or the event list was
exhausted with the loop still polling (carrying the remembered
authorizationError variable). -/
inductive AuthOutcome
  | returned (err : Option GoError)
  | running (remembered : Option GoError)
deriving DecidableEq, Repr

/-- The loop of Authorize from client/authorization.go, run against a list
of select outcomes. On a tick: a getState error is returned at once; then
Handle runs — a non-nil Handle error is remembered in authorizationError
and client.Close is called; then, if the observed state is closed, the
remembered error is returned; if it is ready, the one-second settling sleep
runs and nil is returned; otherwise the loop continues. On cancellation the
function returns nil (this variant neither closes the client nor builds an
error). The deferred handler Close is recorded on every return. -/
def authorizeAux (handle : AuthStateType → HandleStep) :
    List AuthEvent → Option GoError → AuthTrace → AuthTrace × AuthOutcome
  | [], remembered, tr => (tr, .running remembered)
  | .cancelled :: _, _, tr =>
      ({ tr with handlerCloseCount := tr.handlerCloseCount + 1 }, .returned none)
  | .tickErr e :: _, _, tr =>
      ({ tr with handlerCloseCount := tr.handlerCloseCount + 1 }, .returned (some e))
  | .tickOk s callResult :: rest, remembered, tr =>
      let step := handle s
      let tr1 : AuthTrace := { tr with calls := tr.calls ++ callsOfStep step }
      let tr2 : AuthTrace :=
        match handleError step callResult with
        | some _ => { tr1 with clientCloseCount := tr1.clientCloseCount + 1 }
        | none => tr1
      let remembered1 : Option GoError :=
        match handleError step callResult with
        | some e => some e
        | none => remembered
      if s = .closed then
        ({ tr2 with handlerCloseCount := tr2.handlerCloseCount + 1 }, .returned remembered1)
      else if s = .ready then
        ({ tr2 with sleepCount := tr2.sleepCount + 1,
                    handlerCloseCount := tr2.handlerCloseCount + 1 }, .returned none)
      else
        authorizeAux handle rest remembered1 tr2

/-- Authorize from client/authorization.go, started with a nil
authorizationError and an empty effect trace. -/
def Authorize (handle : AuthStateType → HandleStep) (events : List AuthEvent) :
    AuthTrace × AuthOutcome :=
  authorizeAux handle events none AuthTrace.init

/-- The loop of the older Authorize variant (src/unnamed/part_000). It is
identical to authorizeAux except in the cancellation arm, which calls
client.Close and returns the error "authorization timeout finished". -/
def authorizeLegacyAux (handle : AuthStateType → HandleStep) :
    List AuthEvent → Option GoError → AuthTrace → AuthTrace × AuthOutcome
  | [], remembered, tr => (tr, .running remembered)
  | .cancelled :: _, _, tr =>
      ({ tr with clientCloseCount := tr.clientCloseCount + 1,
                 handlerCloseCount := tr.handlerCloseCount + 1 },
       .returned (some .authorizationTimeoutFinished))
  | .tickErr e :: _, _, tr =>
      ({ tr with handlerCloseCount := tr.handlerCloseCount + 1 }, .returned (some e))
  | .tickOk s callResult :: rest, remembered, tr =>
      let step := handle s
      let tr1 : AuthTrace := { tr with calls := tr.calls ++ callsOfStep step }
      let tr2 : AuthTrace :=
        match handleError step callResult with
        | some _ => { tr1 with clientCloseCount := tr1.clientCloseCount + 1 }
        | none => tr1
      let remembered1 : Option GoError :=
        match handleError step callResult with
        | some e => some e
        | none => remembered
      if s = .closed then
        ({ tr2 with handlerCloseCount := tr2.handlerCloseCount + 1 }, .returned remembered1)
      else if s = .ready then
        ({ tr2 with sleepCount := tr2.sleepCount + 1,
                    handlerCloseCount := tr2.handlerCloseCount + 1 }, .returned none)
      else
        authorizeLegacyAux handle rest remembered1 tr2

/-- The older Authorize variant, started with a nil authorizationError and
an empty effect trace. -/
def AuthorizeLegacy (handle : AuthStateType → HandleStep) (events : List AuthEvent) :
    AuthTrace × AuthOutcome :=
  authorizeLegacyAux handle events none AuthTrace.init

/-- The five channels closed by clientAuthorizer.Close. -/
inductive AuthChan
  | tdlibParameters
  | phoneNumber
  | code
  | state
  | password
deriving DecidableEq, Repr

/-- clientAuthorizer.Close closes, in order, the TdlibParameters,
PhoneNumber, Code, State and Password channels. -/
def clientAuthorizerClose : List AuthChan :=
  [.tdlibParameters, .phoneNumber, .code, .state, .password]

/-- Modelled from the spec: the Update variants. The concrete closed set of
decoded update types (the generated Type values produced by UnmarshalType)
is not part of the files under study; the spec only requires a polymorphic
event from a closed set, so the variants are abstracted to an index. -/
inductive TdType
  | update (n : Nat)
deriving DecidableEq, Repr

/-- Modelled from the spec: the raw Data payload of an inbound message,
abstracted at the decoder boundary — a payload either encodes some Update
variant or is malformed (not decodable as any update). -/
inductive RawData
  | encoded (t : TdType)
  | malformed (n : Nat)
deriving DecidableEq, Repr

/-- Modelled from the spec: UnmarshalType (generated code, not under study)
decodes a payload into an Update variant or fails; on a malformed payload
it returns a non-nil error. -/
def UnmarshalType : RawData → Except GoError TdType
  | .encoded t => .ok t
  | .malformed n => .error (.callError n)

/-- An inbound message from tdlib: the Extra correlation tag (empty string
when the message is an unsolicited update) and the raw payload. -/
structure Response where
  extra : String
  data : RawData
deriving DecidableEq, Repr

/-- The catchersStore sync.Map, modelled as an association list from tag to
the buffered contents of the registered catcher channel. -/
abbrev CatchersMap : Type := List (String × List Response)

/-- sync.Map.Load: the first entry with the given key, if any. -/
def loadCatcher : CatchersMap → String → Option (List Response)
  | [], _ => none
  | p :: m, k => if p.1 = k then some p.2 else loadCatcher m k

/-- sync.Map.Delete: removes the entries with the given key. -/
def deleteCatcher : CatchersMap → String → CatchersMap
  | [], _ => []
  | p :: m, k => if p.1 = k then deleteCatcher m k else p :: deleteCatcher m k

/-- sync.Map.Store: inserts or replaces the entry with the given key. -/
def storeCatcher (m : CatchersMap) (k : String) (v : List Response) : CatchersMap :=
  (k, v) :: deleteCatcher m k

/-- Sending a response on the catcher channel registered for tag k:
the response is appended to that channel's buffer. -/
def catcherPush (m : CatchersMap) (k : String) (r : Response) : CatchersMap :=
  List.map (fun p => if p.1 = k then (p.1, p.2 ++ [r]) else p) m

/-- A Listener: the isActive flag and the buffered contents of its Updates
channel. -/
structure Listener where
  isActive : Bool
  updates : List TdType
deriving DecidableEq, Repr

/-- The inner for-loop of receiver over listenerStore.Listeners(): delivers
the decoded update to each listener whose IsActive() is true, in registry
order, and raises the needGc flag when it sees an inactive one. Returns the
updated registry and the needGc flag. -/
def broadcastPass (ls : List Listener) (typ : TdType) : List Listener × Bool :=
  match ls with
  | [] => ([], false)
  | l :: rest =>
      let tail := broadcastPass rest typ
      if l.isActive then
        ({ l with updates := l.updates ++ [typ] } :: tail.1, tail.2)
      else
        (l :: tail.1, true)

/-- Modelled from the spec: listenerStore.gc (the listener registry file is
not under study) removes the inactive entries from the registry. -/
def gcListeners (ls : List Listener) : List Listener :=
  List.filter (fun l => l.isActive) ls

/-- The shared mutable state the dispatch loop touches: the pending-call
map and the listener registry. -/
structure ClientState where
  catchers : CatchersMap
  listeners : List Listener
deriving DecidableEq

/-- One iteration of receiver (client/client.go) on one inbound response.
First, if the Extra tag is non-empty, the tag is looked up in
catchersStore and on a hit the response is sent to that catcher; the loop
then falls through (there is no continue after the catcher delivery) to
UnmarshalType. A decode failure continues with the next message; a decoded
update is broadcast to the active listeners and, when an inactive listener
was observed, listenerStore.gc() runs. -/
def receiverStep (st : ClientState) (response : Response) : ClientState :=
  let st1 : ClientState :=
    if response.extra = "" then st
    else
      match loadCatcher st.catchers response.extra with
      | some _ => { st with catchers := catcherPush st.catchers response.extra response }
      | none => st
  match UnmarshalType response.data with
  | .error _ => st1
  | .ok typ =>
      let pass := broadcastPass st1.listeners typ
      { st1 with listeners := if pass.2 then gcListeners pass.1 else pass.1 }

/-- The receiver loop: the single consumer of client.responses, processing
each inbound message in arrival order until the channel is closed. -/
def receiver (st : ClientState) (responses : List Response) : ClientState :=
  List.foldl receiverStep st responses

/-- The client options relevant here, as recorded by createClient:
catchTimeout is a time.Duration, modelled in seconds. -/
structure ClientConfig where
  catchTimeout : Nat
deriving DecidableEq, Repr

/-- An Option mutates the client under construction. -/
abbrev ClientOption : Type := ClientConfig → ClientConfig

/-- WithCatchTimeout(timeout) sets client.catchTimeout to the given
duration. -/
def WithCatchTimeout (timeout : Nat) : ClientOption :=
  fun c => { c with catchTimeout := timeout }

/-- createClient: the defaults are set first (catchTimeout = 60 seconds),
then each supplied option is applied in order. -/
def createClientConfig (options : List ClientOption) : ClientConfig :=
  List.foldl (fun c o => o c) { catchTimeout := 60 } options

/-- How the select in Send resolves for one call: the reply reached the
catcher channel before the timeout context fired, or the timeout fired
first. -/
inductive SendOutcome
  | replyArrived (r : Response)
  | timedOut
deriving DecidableEq, Repr

/-- Send (client/client.go) for one call, against the pending-call map:
a catcher slot is stored under the generated tag before the request goes
out; the deferred cleanup deletes the slot (and closes the catcher) before
Send returns on both paths; the select either yields the caught response
with a nil error or the "response catching timeout" error. Returns the
map as left after the deferred delete, and Send's result. -/
def Send (catchers : CatchersMap) (tag : String) (outcome : SendOutcome) :
    CatchersMap × Except GoError Response :=
  let registered := storeCatcher catchers tag []
  match outcome with
  | .replyArrived r => (deleteCatcher registered tag, .ok r)
  | .timedOut => (deleteCatcher registered tag, .error .responseCatchingTimeout)

/-- An event on which the Authorize loop keeps polling: the timer fired,
GetAuthorizationState succeeded, and the observed state is neither closed
nor ready (regardless of whether Handle failed on it — a Handle failure
only tears the client down and is remembered). -/
def continuesTick : AuthEvent → Bool
  | .tickOk s _ => !(s == AuthStateType.closed) && !(s == AuthStateType.ready)
  | .tickErr _ => false
  | .cancelled => false

/-- A continuing event on which, additionally, Handle returns nil. -/
def continuesTickNoError (handle : AuthStateType → HandleStep) : AuthEvent → Bool
  | .tickOk s c =>
      (!(s == AuthStateType.closed) && !(s == AuthStateType.ready))
        && (handleError (handle s) c == none)
  | .tickErr _ => false
  | .cancelled => false

theorem authorizeAux_skip (handle : AuthStateType → HandleStep)
    (pre : List AuthEvent) (rest : List AuthEvent) (rem : Option GoError) (tr : AuthTrace)
    (h : ∀ ev ∈ pre, continuesTick ev = true) :
    ∃ rem2 tr2, authorizeAux handle (pre ++ rest) rem tr = authorizeAux handle rest rem2 tr2
      ∧ tr2.sleepCount = tr.sleepCount
      ∧ tr2.handlerCloseCount = tr.handlerCloseCount
      ∧ tr.clientCloseCount ≤ tr2.clientCloseCount := by
  induction pre generalizing rem tr with
  | nil => exact ⟨rem, tr, rfl, rfl, rfl, le_refl _⟩
  | cons ev pre ih =>
      have hev : continuesTick ev = true := h ev (List.mem_cons_self ev pre)
      have hpre : ∀ e ∈ pre, continuesTick e = true :=
        fun e he => h e (List.mem_cons_of_mem ev he)
      match ev with
      | .tickOk s c =>
          have hs : ¬ s = AuthStateType.closed ∧ ¬ s = AuthStateType.ready := by
            simp only [continuesTick, Bool.and_eq_true, Bool.not_eq_true', beq_eq_false_iff_ne,
              ne_eq] at hev
            exact hev
          cases hcall : handleError (handle s) c with
          | some e =>
              have hstep : authorizeAux handle ((AuthEvent.tickOk s c :: pre) ++ rest) rem tr
                  = authorizeAux handle (pre ++ rest) (some e)
                      { tr with calls := tr.calls ++ callsOfStep (handle s),
                                clientCloseCount := tr.clientCloseCount + 1 } := by
                simp only [List.cons_append, authorizeAux, hcall, if_neg hs.1, if_neg hs.2,
                  List.append_eq]
              rcases ih (some e)
                  { tr with calls := tr.calls ++ callsOfStep (handle s),
                            clientCloseCount := tr.clientCloseCount + 1 } hpre with
                ⟨rem2, tr2, heq, hsleep, hhc, hcc⟩
              exact ⟨rem2, tr2, hstep.trans heq, hsleep, hhc,
                le_trans (Nat.le_succ _) hcc⟩
          | none =>
              have hstep : authorizeAux handle ((AuthEvent.tickOk s c :: pre) ++ rest) rem tr
                  = authorizeAux handle (pre ++ rest) rem
                      { tr with calls := tr.calls ++ callsOfStep (handle s) } := by
                simp only [List.cons_append, authorizeAux, hcall, if_neg hs.1, if_neg hs.2,
                  List.append_eq]
              rcases ih rem { tr with calls := tr.calls ++ callsOfStep (handle s) } hpre with
                ⟨rem2, tr2, heq, hsleep, hhc, hcc⟩
              exact ⟨rem2, tr2, hstep.trans heq, hsleep, hhc, hcc⟩
      | .tickErr e => simp [continuesTick] at hev
      | .cancelled => simp [continuesTick] at hev

theorem authorizeAux_skip_noerr (handle : AuthStateType → HandleStep)
    (pre : List AuthEvent) (rest : List AuthEvent) (rem : Option GoError) (tr : AuthTrace)
    (h : ∀ ev ∈ pre, continuesTickNoError handle ev = true) :
    ∃ tr2, authorizeAux handle (pre ++ rest) rem tr = authorizeAux handle rest rem tr2
      ∧ tr2.sleepCount = tr.sleepCount
      ∧ tr2.handlerCloseCount = tr.handlerCloseCount
      ∧ tr2.clientCloseCount = tr.clientCloseCount := by
  induction pre generalizing tr with
  | nil => exact ⟨tr, rfl, rfl, rfl, rfl⟩
  | cons ev pre ih =>
      have hev : continuesTickNoError handle ev = true := h ev (List.mem_cons_self ev pre)
      have hpre : ∀ e ∈ pre, continuesTickNoError handle e = true :=
        fun e he => h e (List.mem_cons_of_mem ev he)
      match ev with
      | .tickOk s c =>
          have hs : (¬ s = AuthStateType.closed ∧ ¬ s = AuthStateType.ready)
              ∧ handleError (handle s) c = none := by
            simp only [continuesTickNoError, Bool.and_eq_true, Bool.not_eq_true',
              beq_eq_false_iff_ne, ne_eq, beq_iff_eq] at hev
            exact hev
          have hstep : authorizeAux handle ((AuthEvent.tickOk s c :: pre) ++ rest) rem tr
              = authorizeAux handle (pre ++ rest) rem
                  { tr with calls := tr.calls ++ callsOfStep (handle s) } := by
            simp only [List.cons_append, authorizeAux, hs.2, if_neg hs.1.1, if_neg hs.1.2,
              List.append_eq]
          rcases ih { tr with calls := tr.calls ++ callsOfStep (handle s) } hpre with
            ⟨tr2, heq, hsleep, hhc, hcc⟩
          exact ⟨tr2, hstep.trans heq, hsleep, hhc, hcc⟩
      | .tickErr e => simp [continuesTickNoError] at hev
      | .cancelled => simp [continuesTickNoError] at hev

theorem authorizeLegacyAux_skip (handle : AuthStateType → HandleStep)
    (pre : List AuthEvent) (rest : List AuthEvent) (rem : Option GoError) (tr : AuthTrace)
    (h : ∀ ev ∈ pre, continuesTick ev = true) :
    ∃ rem2 tr2,
      authorizeLegacyAux handle (pre ++ rest) rem tr = authorizeLegacyAux handle rest rem2 tr2
      ∧ tr2.sleepCount = tr.sleepCount
      ∧ tr2.handlerCloseCount = tr.handlerCloseCount
      ∧ tr.clientCloseCount ≤ tr2.clientCloseCount := by
  induction pre generalizing rem tr with
  | nil => exact ⟨rem, tr, rfl, rfl, rfl, le_refl _⟩
  | cons ev pre ih =>
      have hev : continuesTick ev = true := h ev (List.mem_cons_self ev pre)
      have hpre : ∀ e ∈ pre, continuesTick e = true :=
        fun e he => h e (List.mem_cons_of_mem ev he)
      match ev with
      | .tickOk s c =>
          have hs : ¬ s = AuthStateType.closed ∧ ¬ s = AuthStateType.ready := by
            simp only [continuesTick, Bool.and_eq_true, Bool.not_eq_true', beq_eq_false_iff_ne,
              ne_eq] at hev
            exact hev
          cases hcall : handleError (handle s) c with
          | some e =>
              have hstep :
                  authorizeLegacyAux handle ((AuthEvent.tickOk s c :: pre) ++ rest) rem tr
                  = authorizeLegacyAux handle (pre ++ rest) (some e)
                      { tr with calls := tr.calls ++ callsOfStep (handle s),
                                clientCloseCount := tr.clientCloseCount + 1 } := by
                simp only [List.cons_append, authorizeLegacyAux, hcall, if_neg hs.1,
                  if_neg hs.2, List.append_eq]
              rcases ih (some e)
                  { tr with calls := tr.calls ++ callsOfStep (handle s),
                            clientCloseCount := tr.clientCloseCount + 1 } hpre with
                ⟨rem2, tr2, heq, hsleep, hhc, hcc⟩
              exact ⟨rem2, tr2, hstep.trans heq, hsleep, hhc,
                le_trans (Nat.le_succ _) hcc⟩
          | none =>
              have hstep :
                  authorizeLegacyAux handle ((AuthEvent.tickOk s c :: pre) ++ rest) rem tr
                  = authorizeLegacyAux handle (pre ++ rest) rem
                      { tr with calls := tr.calls ++ callsOfStep (handle s) } := by
                simp only [List.cons_append, authorizeLegacyAux, hcall, if_neg hs.1,
                  if_neg hs.2, List.append_eq]
              rcases ih rem { tr with calls := tr.calls ++ callsOfStep (handle s) } hpre with
                ⟨rem2, tr2, heq, hsleep, hhc, hcc⟩
              exact ⟨rem2, tr2, hstep.trans heq, hsleep, hhc, hcc⟩
      | .tickErr e => simp [continuesTick] at hev
      | .cancelled => simp [continuesTick] at hev

theorem authorizeAux_returned_handlerClose (handle : AuthStateType → HandleStep) :
    ∀ (events : List AuthEvent) (rem : Option GoError) (tr tr2 : AuthTrace)
      (r : Option GoError),
      authorizeAux handle events rem tr = (tr2, .returned r) →
      tr2.handlerCloseCount = tr.handlerCloseCount + 1 := by
  intro events
  induction events with
  | nil =>
      intro rem tr tr2 r heq
      simp only [authorizeAux, Prod.mk.injEq] at heq
      exact absurd heq.2 (by simp)
  | cons ev rest ih =>
      intro rem tr tr2 r heq
      match ev with
      | .cancelled =>
          simp only [authorizeAux] at heq
          cases heq
          rfl
      | .tickErr e =>
          simp only [authorizeAux] at heq
          cases heq
          rfl
      | .tickOk s c =>
          by_cases h1 : s = AuthStateType.closed
          · subst h1
            cases hcall : handleError (handle AuthStateType.closed) c with
            | some e =>
                simp only [authorizeAux, hcall, if_pos rfl] at heq
                cases heq
                rfl
            | none =>
                simp only [authorizeAux, hcall, if_pos rfl] at heq
                cases heq
                rfl
          · by_cases h2 : s = AuthStateType.ready
            · subst h2
              cases hcall : handleError (handle AuthStateType.ready) c with
              | some e =>
                  simp only [authorizeAux, hcall, if_neg h1, if_pos rfl] at heq
                  cases heq
                  rfl
              | none =>
                  simp only [authorizeAux, hcall, if_neg h1, if_pos rfl] at heq
                  cases heq
                  rfl
            · cases hcall : handleError (handle s) c with
              | some e =>
                  simp only [authorizeAux, hcall, if_neg h1, if_neg h2] at heq
                  have h3 := ih _ _ _ _ heq
                  exact h3
              | none =>
                  simp only [authorizeAux, hcall, if_neg h1, if_neg h2] at heq
                  have h3 := ih _ _ _ _ heq
                  exact h3

/-- Evaluation of the current-variant loop on a lone cancellation event. -/
theorem authorizeAux_cancel (handle : AuthStateType → HandleStep)
    (rest : List AuthEvent) (rem : Option GoError) (tr : AuthTrace) :
    authorizeAux handle (AuthEvent.cancelled :: rest) rem tr
      = ({ tr with handlerCloseCount := tr.handlerCloseCount + 1 }, .returned none) := rfl

/-- Evaluation of the legacy loop on a lone cancellation event. -/
theorem authorizeLegacyAux_cancel (handle : AuthStateType → HandleStep)
    (rest : List AuthEvent) (rem : Option GoError) (tr : AuthTrace) :
    authorizeLegacyAux handle (AuthEvent.cancelled :: rest) rem tr
      = ({ tr with clientCloseCount := tr.clientCloseCount + 1,
                   handlerCloseCount := tr.handlerCloseCount + 1 },
         .returned (some .authorizationTimeoutFinished)) := rfl

/-- C3 counterexample: in client/authorization.go the interactive
clientAuthorizer.Handle, asked to handle wait-encryption-key, returns the
distinguished unsupported-state error (the switch has no case for that
state, so it falls to the trailing return), contradicting the claim that
wait-encryption-key does not get that error. -/
theorem clientAuthorizerHandle_waitEncryptionKey_unsupported :
    handleError (clientAuthorizerHandle AuthStateType.waitEncryptionKey) none
      = some GoError.notSupportedAuthorizationState := rfl

/-- C3 (amended): the interactive Handle of client/authorization.go returns
the unsupported-state error exactly for wait-email-address, wait-email-code,
wait-other-device-confirmation, wait-registration, logging-out AND
wait-encryption-key; every other state issues at most one corrective call,
with ready, closing and closed returning nil; only the older variant of the
file issues a corrective call (CheckDatabaseEncryptionKey) for
wait-encryption-key. -/
theorem clientAuthorizerHandle_characterization :
    (∀ s : AuthStateType,
      (clientAuthorizerHandle s = HandleStep.unsupported ↔
        s ∈ [AuthStateType.waitEmailAddress, AuthStateType.waitEmailCode,
             AuthStateType.waitOtherDeviceConfirmation, AuthStateType.waitRegistration,
             AuthStateType.loggingOut, AuthStateType.waitEncryptionKey]))
    ∧ (∀ s : AuthStateType, (callsOfStep (clientAuthorizerHandle s)).length ≤ 1)
    ∧ clientAuthorizerHandle AuthStateType.ready = HandleStep.ok
    ∧ clientAuthorizerHandle AuthStateType.closing = HandleStep.ok
    ∧ clientAuthorizerHandle AuthStateType.closed = HandleStep.ok
    ∧ clientAuthorizerHandleLegacy AuthStateType.waitEncryptionKey
        = HandleStep.call CorrectiveCall.checkDatabaseEncryptionKey := by
  refine ⟨?_, ?_, rfl, rfl, rfl, rfl⟩
  · intro s
    cases s <;> simp [clientAuthorizerHandle]
  · intro s
    cases s <;> simp [clientAuthorizerHandle, callsOfStep]

/-- C1 counterexample: in client/authorization.go, when the handler context
is cancelled on the first poll (before any terminal state), Authorize
returns a nil error and never calls client.Close — against the claim of a
non-nil cancellation error and a client teardown. -/
theorem authorize_cancelled_returns_nil :
    Authorize clientAuthorizerHandle [AuthEvent.cancelled]
      = ({ clientCloseCount := 0, handlerCloseCount := 1, sleepCount := 0, calls := [] },
         AuthOutcome.returned none) := rfl

/-- C1 (amended): cancellation before a terminal state aborts the loop in
both variants, but only the older Authorize variant (src/unnamed/part_000)
tears the client down and returns the error "authorization timeout
finished" — non-nil and distinct from the Timeout and Unsupported-state
errors; the Authorize of client/authorization.go returns nil on
cancellation without closing the client. -/
theorem authorize_cancellation (pre : List AuthEvent)
    (h : ∀ ev ∈ pre, continuesTick ev = true) :
    ((AuthorizeLegacy clientAuthorizerHandleLegacy (pre ++ [AuthEvent.cancelled])).2
        = AuthOutcome.returned (some GoError.authorizationTimeoutFinished)
      ∧ 1 ≤ (AuthorizeLegacy clientAuthorizerHandleLegacy
              (pre ++ [AuthEvent.cancelled])).1.clientCloseCount
      ∧ ¬ GoError.authorizationTimeoutFinished = GoError.responseCatchingTimeout
      ∧ ¬ GoError.authorizationTimeoutFinished = GoError.notSupportedAuthorizationState)
    ∧ (Authorize clientAuthorizerHandle (pre ++ [AuthEvent.cancelled])).2
        = AuthOutcome.returned none := by
  constructor
  · rcases authorizeLegacyAux_skip clientAuthorizerHandleLegacy pre [AuthEvent.cancelled]
        none AuthTrace.init h with ⟨rem2, tr2, heq, hsleep, hhc, hcc⟩
    have hrun : AuthorizeLegacy clientAuthorizerHandleLegacy (pre ++ [AuthEvent.cancelled])
        = ({ tr2 with clientCloseCount := tr2.clientCloseCount + 1,
                      handlerCloseCount := tr2.handlerCloseCount + 1 },
           .returned (some .authorizationTimeoutFinished)) := by
      unfold AuthorizeLegacy
      rw [heq, authorizeLegacyAux_cancel]
    refine ⟨by rw [hrun], by rw [hrun]; exact Nat.le_add_left 1 _, by simp, by simp⟩
  · rcases authorizeAux_skip clientAuthorizerHandle pre [AuthEvent.cancelled]
        none AuthTrace.init h with ⟨rem2, tr2, heq, hsleep, hhc, hcc⟩
    have hrun : Authorize clientAuthorizerHandle (pre ++ [AuthEvent.cancelled])
        = ({ tr2 with handlerCloseCount := tr2.handlerCloseCount + 1 },
           .returned none) := by
      unfold Authorize
      rw [heq, authorizeAux_cancel]
    rw [hrun]

/-- C1 witness: the amended statement instantiated at the spec's scenario —
the operator never responds in state wait-code and the context is then
cancelled. -/
theorem authorize_cancellation_witness :
    (∀ ev ∈ [AuthEvent.tickOk AuthStateType.waitCode none], continuesTick ev = true)
    ∧ ((AuthorizeLegacy clientAuthorizerHandleLegacy
          ([AuthEvent.tickOk AuthStateType.waitCode none] ++ [AuthEvent.cancelled])).2
        = AuthOutcome.returned (some GoError.authorizationTimeoutFinished)
      ∧ 1 ≤ (AuthorizeLegacy clientAuthorizerHandleLegacy
              ([AuthEvent.tickOk AuthStateType.waitCode none] ++ [AuthEvent.cancelled])).1.clientCloseCount
      ∧ ¬ GoError.authorizationTimeoutFinished = GoError.responseCatchingTimeout
      ∧ ¬ GoError.authorizationTimeoutFinished = GoError.notSupportedAuthorizationState)
    ∧ (Authorize clientAuthorizerHandle
        ([AuthEvent.tickOk AuthStateType.waitCode none] ++ [AuthEvent.cancelled])).2
        = AuthOutcome.returned none :=
  ⟨by decide,
    (authorize_cancellation [AuthEvent.tickOk AuthStateType.waitCode none] (by decide)).1,
    (authorize_cancellation [AuthEvent.tickOk AuthStateType.waitCode none] (by decide)).2⟩

/-- C10: on every return path of Authorize — success after ready, a
remembered error returned at closed, an error from GetAuthorizationState,
and cancellation — the deferred authorizationStateHandler.Close runs
exactly once, and (for the interactive handler) Close closes each of the
five input channels. -/
theorem authorize_handler_closed (handle : AuthStateType → HandleStep)
    (events : List AuthEvent) (r : Option GoError)
    (h : (Authorize handle events).2 = AuthOutcome.returned r) :
    (Authorize handle events).1.handlerCloseCount = 1
    ∧ ∀ ch : AuthChan, ch ∈ clientAuthorizerClose := by
  constructor
  · have hpair : authorizeAux handle events none AuthTrace.init
        = ((Authorize handle events).1, AuthOutcome.returned r) := by
      rw [show ((Authorize handle events).1, AuthOutcome.returned r)
            = ((Authorize handle events).1, (Authorize handle events).2) by rw [h]]
      rfl
    have := authorizeAux_returned_handlerClose handle events none AuthTrace.init
      (Authorize handle events).1 r hpair
    simpa [AuthTrace.init] using this
  · intro ch
    cases ch <;> simp [clientAuthorizerClose]

/-- C10 witness: the cancellation return path, concretely. -/
theorem authorize_handler_closed_witness :
    (Authorize clientAuthorizerHandle [AuthEvent.cancelled]).2
        = AuthOutcome.returned none
    ∧ (Authorize clientAuthorizerHandle [AuthEvent.cancelled]).1.handlerCloseCount = 1 :=
  ⟨rfl, (authorize_handler_closed clientAuthorizerHandle [AuthEvent.cancelled] none rfl).1⟩

/-- Step equation: an iteration whose Handle fails on a non-terminal state
remembers the error, calls client.Close, and keeps polling. -/
theorem authorizeAux_error_tick (handle : AuthStateType → HandleStep)
    (s : AuthStateType) (c : Option GoError) (rest : List AuthEvent)
    (rem : Option GoError) (tr : AuthTrace) (e : GoError)
    (herr : handleError (handle s) c = some e)
    (h1 : ¬ s = AuthStateType.closed) (h2 : ¬ s = AuthStateType.ready) :
    authorizeAux handle (AuthEvent.tickOk s c :: rest) rem tr
      = authorizeAux handle rest (some e)
          { tr with calls := tr.calls ++ callsOfStep (handle s),
                    clientCloseCount := tr.clientCloseCount + 1 } := by
  simp only [authorizeAux, herr, if_neg h1, if_neg h2]

/-- Step equation: an iteration observing closed with a nil Handle result
returns the remembered error, running the deferred handler Close. -/
theorem authorizeAux_closed_tick (handle : AuthStateType → HandleStep)
    (c : Option GoError) (rest : List AuthEvent) (rem : Option GoError) (tr : AuthTrace)
    (hok : handleError (handle AuthStateType.closed) c = none) :
    authorizeAux handle (AuthEvent.tickOk AuthStateType.closed c :: rest) rem tr
      = ({ tr with calls := tr.calls ++ callsOfStep (handle AuthStateType.closed),
                   handlerCloseCount := tr.handlerCloseCount + 1 },
         AuthOutcome.returned rem) := by
  simp [authorizeAux, hok]

/-- Step equation (projections): an iteration observing ready returns nil
after performing exactly one settling sleep, whatever the Handle result. -/
theorem authorizeAux_ready_tick (handle : AuthStateType → HandleStep)
    (c : Option GoError) (rest : List AuthEvent) (rem : Option GoError) (tr : AuthTrace) :
    (authorizeAux handle (AuthEvent.tickOk AuthStateType.ready c :: rest) rem tr).2
        = AuthOutcome.returned none
    ∧ (authorizeAux handle (AuthEvent.tickOk AuthStateType.ready c :: rest) rem tr).1.sleepCount
        = tr.sleepCount + 1 := by
  cases hcall : handleError (handle AuthStateType.ready) c <;>
    simp [authorizeAux, hcall]

/-- C4: when Handle fails on a non-terminal state, the error is remembered
and client.Close is called; the loop keeps polling through further
uneventful iterations rather than returning, and when the observed state
becomes closed, Authorize returns exactly the remembered error. -/
theorem authorize_returns_remembered_error (handle : AuthStateType → HandleStep)
    (pre mid : List AuthEvent) (s : AuthStateType) (c cClosed : Option GoError) (e : GoError)
    (hpre : ∀ ev ∈ pre, continuesTickNoError handle ev = true)
    (herr : handleError (handle s) c = some e)
    (h1 : ¬ s = AuthStateType.closed) (h2 : ¬ s = AuthStateType.ready)
    (hmid : ∀ ev ∈ mid, continuesTickNoError handle ev = true)
    (hclosed : handleError (handle AuthStateType.closed) cClosed = none) :
    (Authorize handle (pre ++ AuthEvent.tickOk s c ::
        (mid ++ [AuthEvent.tickOk AuthStateType.closed cClosed]))).2
      = AuthOutcome.returned (some e)
    ∧ 1 ≤ (Authorize handle (pre ++ AuthEvent.tickOk s c ::
        (mid ++ [AuthEvent.tickOk AuthStateType.closed cClosed]))).1.clientCloseCount := by
  rcases authorizeAux_skip_noerr handle pre
      (AuthEvent.tickOk s c :: (mid ++ [AuthEvent.tickOk AuthStateType.closed cClosed]))
      none AuthTrace.init hpre with ⟨tr2, heq1, hsleep1, hhc1, hcc1⟩
  have heq2 := authorizeAux_error_tick handle s c
      (mid ++ [AuthEvent.tickOk AuthStateType.closed cClosed]) none tr2 e herr h1 h2
  rcases authorizeAux_skip_noerr handle mid
      [AuthEvent.tickOk AuthStateType.closed cClosed] (some e)
      { tr2 with calls := tr2.calls ++ callsOfStep (handle s),
                 clientCloseCount := tr2.clientCloseCount + 1 } hmid with
    ⟨tr3, heq3, hsleep3, hhc3, hcc3⟩
  have heq4 := authorizeAux_closed_tick handle cClosed [] (some e) tr3 hclosed
  have hrun : Authorize handle (pre ++ AuthEvent.tickOk s c ::
      (mid ++ [AuthEvent.tickOk AuthStateType.closed cClosed]))
      = ({ tr3 with calls := tr3.calls ++ callsOfStep (handle AuthStateType.closed),
                    handlerCloseCount := tr3.handlerCloseCount + 1 },
         AuthOutcome.returned (some e)) := by
    unfold Authorize
    rw [heq1, heq2, heq3, heq4]
  refine ⟨by rw [hrun], ?_⟩
  rw [hrun]
  show 1 ≤ tr3.clientCloseCount
  rw [hcc3]
  exact Nat.le_add_left 1 _

/-- C4 witness: the spec's scenario — the unsupported wait-registration
state is reported, the loop keeps polling through a closing tick, and
closed then yields the recorded unsupported-state error. -/
theorem authorize_returns_remembered_error_witness :
    handleError (clientAuthorizerHandle AuthStateType.waitRegistration) none
        = some GoError.notSupportedAuthorizationState
    ∧ (Authorize clientAuthorizerHandle
        ([] ++ AuthEvent.tickOk AuthStateType.waitRegistration none ::
          ([AuthEvent.tickOk AuthStateType.closing none]
            ++ [AuthEvent.tickOk AuthStateType.closed none]))).2
        = AuthOutcome.returned (some GoError.notSupportedAuthorizationState)
    ∧ 1 ≤ (Authorize clientAuthorizerHandle
        ([] ++ AuthEvent.tickOk AuthStateType.waitRegistration none ::
          ([AuthEvent.tickOk AuthStateType.closing none]
            ++ [AuthEvent.tickOk AuthStateType.closed none]))).1.clientCloseCount :=
  ⟨rfl,
    (authorize_returns_remembered_error clientAuthorizerHandle []
      [AuthEvent.tickOk AuthStateType.closing none]
      AuthStateType.waitRegistration none none GoError.notSupportedAuthorizationState
      (by decide) rfl (by decide) (by decide) (by decide) rfl).1,
    (authorize_returns_remembered_error clientAuthorizerHandle []
      [AuthEvent.tickOk AuthStateType.closing none]
      AuthStateType.waitRegistration none none GoError.notSupportedAuthorizationState
      (by decide) rfl (by decide) (by decide) (by decide) rfl).2⟩

/-- C5: an execution whose observed state becomes ready after any run of
non-terminal polls returns nil after exactly one settling sleep, with no
closed state required anywhere on the path; concretely, the sequence
wait-parameters, wait-phone-number, wait-code, ready drives exactly the
three corrective calls set-parameters, set-phone, check-code and then
succeeds. -/
theorem authorize_ready_success (handle : AuthStateType → HandleStep)
    (pre : List AuthEvent) (c : Option GoError)
    (hpre : ∀ ev ∈ pre, continuesTick ev = true) :
    ((Authorize handle (pre ++ [AuthEvent.tickOk AuthStateType.ready c])).2
        = AuthOutcome.returned none
    ∧ (Authorize handle (pre ++ [AuthEvent.tickOk AuthStateType.ready c])).1.sleepCount = 1)
    ∧ Authorize clientAuthorizerHandle
        [AuthEvent.tickOk AuthStateType.waitTdlibParameters none,
         AuthEvent.tickOk AuthStateType.waitPhoneNumber none,
         AuthEvent.tickOk AuthStateType.waitCode none,
         AuthEvent.tickOk AuthStateType.ready none]
      = ({ clientCloseCount := 0, handlerCloseCount := 1, sleepCount := 1,
           calls := [CorrectiveCall.setTdlibParameters,
                     CorrectiveCall.setAuthenticationPhoneNumber,
                     CorrectiveCall.checkAuthenticationCode] },
         AuthOutcome.returned none) := by
  constructor
  · rcases authorizeAux_skip handle pre [AuthEvent.tickOk AuthStateType.ready c]
        none AuthTrace.init hpre with ⟨rem2, tr2, heq, hsleep, hhc, hcc⟩
    have hready := authorizeAux_ready_tick handle c [] rem2 tr2
    constructor
    · show (authorizeAux handle (pre ++ [AuthEvent.tickOk AuthStateType.ready c])
          none AuthTrace.init).2 = AuthOutcome.returned none
      rw [heq]
      exact hready.1
    · show (authorizeAux handle (pre ++ [AuthEvent.tickOk AuthStateType.ready c])
          none AuthTrace.init).1.sleepCount = 1
      rw [heq]
      rw [hready.2, hsleep]
      rfl
  · rfl

/-- C5 witness: the general ready-path statement instantiated at a single
wait-phone-number poll followed by ready. -/
theorem authorize_ready_success_witness :
    (∀ ev ∈ [AuthEvent.tickOk AuthStateType.waitPhoneNumber none], continuesTick ev = true)
    ∧ (Authorize clientAuthorizerHandle
        ([AuthEvent.tickOk AuthStateType.waitPhoneNumber none]
          ++ [AuthEvent.tickOk AuthStateType.ready none])).2
        = AuthOutcome.returned none
    ∧ (Authorize clientAuthorizerHandle
        ([AuthEvent.tickOk AuthStateType.waitPhoneNumber none]
          ++ [AuthEvent.tickOk AuthStateType.ready none])).1.sleepCount = 1 :=
  ⟨by decide,
    ((authorize_ready_success clientAuthorizerHandle
      [AuthEvent.tickOk AuthStateType.waitPhoneNumber none] none (by decide)).1).1,
    ((authorize_ready_success clientAuthorizerHandle
      [AuthEvent.tickOk AuthStateType.waitPhoneNumber none] none (by decide)).1).2⟩

theorem loadCatcher_deleteCatcher_self (m : CatchersMap) (k : String) :
    loadCatcher (deleteCatcher m k) k = none := by
  induction m with
  | nil => rfl
  | cons p m ih =>
      by_cases h : p.1 = k
      · simpa [deleteCatcher, h] using ih
      · simpa [deleteCatcher, loadCatcher, h] using ih

theorem loadCatcher_deleteCatcher_other (m : CatchersMap) (k k2 : String)
    (h : ¬ k2 = k) : loadCatcher (deleteCatcher m k) k2 = loadCatcher m k2 := by
  induction m with
  | nil => rfl
  | cons p m ih =>
      by_cases hp : p.1 = k
      · have hkk : ¬ k = k2 := fun hc => h hc.symm
        simpa [deleteCatcher, loadCatcher, hp, hkk] using ih
      · by_cases hq : p.1 = k2
        · simp [deleteCatcher, loadCatcher, hp, hq, h]
        · simpa [deleteCatcher, loadCatcher, hp, hq] using ih

/-- C6: a call whose reply never arrives within the catch-timeout window
resolves with the "response catching timeout" error; the deferred cleanup
deletes the pending slot before Send returns, leaving no residual entry
for the call's tag and touching no other tag; the window defaults to 60
seconds and WithCatchTimeout overrides it. -/
theorem send_timeout (catchers : CatchersMap) (tag : String) :
    ((Send catchers tag SendOutcome.timedOut).2
        = Except.error GoError.responseCatchingTimeout
    ∧ loadCatcher (Send catchers tag SendOutcome.timedOut).1 tag = none
    ∧ ∀ k : String, ¬ k = tag →
        loadCatcher (Send catchers tag SendOutcome.timedOut).1 k = loadCatcher catchers k)
    ∧ (createClientConfig []).catchTimeout = 60
    ∧ ∀ t : Nat, (createClientConfig [WithCatchTimeout t]).catchTimeout = t := by
  refine ⟨⟨rfl, ?_, ?_⟩, rfl, fun t => rfl⟩
  · exact loadCatcher_deleteCatcher_self _ _
  · intro k hk
    show loadCatcher (deleteCatcher (storeCatcher catchers tag []) tag) k
        = loadCatcher catchers k
    rw [loadCatcher_deleteCatcher_other _ _ _ hk]
    have htag : ¬ (tag, ([] : List Response)).1 = k := fun hc => hk hc.symm
    show loadCatcher ((tag, []) :: deleteCatcher catchers tag) k = loadCatcher catchers k
    simp only [loadCatcher, if_neg htag]
    exact loadCatcher_deleteCatcher_other _ _ _ hk

/-- C6 witness: a concrete timed-out call with one unrelated pending
entry. -/
theorem send_timeout_witness :
    (Send [("a", [])] "x" SendOutcome.timedOut).2
        = Except.error GoError.responseCatchingTimeout
    ∧ loadCatcher (Send [("a", [])] "x" SendOutcome.timedOut).1 "x" = none
    ∧ loadCatcher (Send [("a", [])] "x" SendOutcome.timedOut).1 "a"
        = loadCatcher [("a", [])] "a"
    ∧ (createClientConfig []).catchTimeout = 60
    ∧ (createClientConfig [WithCatchTimeout 5]).catchTimeout = 5 :=
  ⟨(send_timeout [("a", [])] "x").1.1,
   (send_timeout [("a", [])] "x").1.2.1,
   (send_timeout [("a", [])] "x").1.2.2 "a" (by decide),
   (send_timeout [("a", [])] "x").2.1,
   (send_timeout [("a", [])] "x").2.2 5⟩

/-- C2 counterexample: a message carrying the pending tag "x" whose payload
also decodes as an update is delivered to the matching catcher AND
broadcast to the active listener — the receiver has no continue after the
catcher delivery, so a tagged reply and an update are not mutually
exclusive. -/
theorem receiver_tagged_reply_also_broadcast_counterexample :
    (receiverStep
        { catchers := [("x", [])], listeners := [{ isActive := true, updates := [] }] }
        { extra := "x", data := RawData.encoded (TdType.update 0) }).catchers
      = [("x", [{ extra := "x", data := RawData.encoded (TdType.update 0) }])]
    ∧ (receiverStep
        { catchers := [("x", [])], listeners := [{ isActive := true, updates := [] }] }
        { extra := "x", data := RawData.encoded (TdType.update 0) }).listeners
      = [{ isActive := true, updates := [TdType.update 0] }] := by
  constructor <;> rfl

/-- C2 (amended): a message with a non-empty, matched correlation tag is
delivered to the matching pending call first, but tag presence does not
suppress the update path: the dispatch loop still attempts to decode the
payload, and when it decodes the same message is also broadcast to the
active listeners. -/
theorem receiver_tagged_reply_also_broadcast (st : ClientState) (r : Response)
    (buf : List Response) (t : TdType)
    (hextra : ¬ r.extra = "")
    (hload : loadCatcher st.catchers r.extra = some buf)
    (hdec : UnmarshalType r.data = Except.ok t) :
    (receiverStep st r).catchers = catcherPush st.catchers r.extra r
    ∧ (receiverStep st r).listeners
        = (if (broadcastPass st.listeners t).2
           then gcListeners (broadcastPass st.listeners t).1
           else (broadcastPass st.listeners t).1) := by
  constructor <;> simp [receiverStep, hextra, hload, hdec]

/-- C2 witness: the amended statement at the counterexample's input. -/
theorem receiver_tagged_reply_also_broadcast_witness :
    ¬ ({ extra := "x", data := RawData.encoded (TdType.update 0) } : Response).extra = ""
    ∧ (receiverStep
        { catchers := [("x", [])], listeners := [{ isActive := true, updates := [] }] }
        { extra := "x", data := RawData.encoded (TdType.update 0) }).catchers
      = catcherPush [("x", [])] "x" { extra := "x", data := RawData.encoded (TdType.update 0) } :=
  ⟨by decide,
   (receiver_tagged_reply_also_broadcast
      { catchers := [("x", [])], listeners := [{ isActive := true, updates := [] }] }
      { extra := "x", data := RawData.encoded (TdType.update 0) }
      [] (TdType.update 0) (by decide) rfl rfl).1⟩

/-- C7: a reply whose tag has no pending entry leaves the pending-call map
untouched (no call is resolved, none is affected) and the loop goes on to
the next inbound message. -/
theorem receiver_unmatched_reply_dropped (st : ClientState) (r : Response)
    (rest : List Response)
    (hload : loadCatcher st.catchers r.extra = none) :
    (receiverStep st r).catchers = st.catchers
    ∧ receiver st (r :: rest) = receiver (receiverStep st r) rest := by
  refine ⟨?_, rfl⟩
  by_cases hx : r.extra = ""
  · cases hdec : UnmarshalType r.data <;> simp [receiverStep, hx, hdec]
  · cases hdec : UnmarshalType r.data <;> simp [receiverStep, hx, hload, hdec]

/-- C7 witness: a late reply with tag "y" against an empty pending map. -/
theorem receiver_unmatched_reply_dropped_witness :
    loadCatcher ({ catchers := [], listeners := [] } : ClientState).catchers "y" = none
    ∧ (receiverStep { catchers := [], listeners := [] }
        { extra := "y", data := RawData.malformed 0 }).catchers
      = ({ catchers := [], listeners := [] } : ClientState).catchers :=
  ⟨rfl,
   (receiver_unmatched_reply_dropped { catchers := [], listeners := [] }
      { extra := "y", data := RawData.malformed 0 } [] rfl).1⟩

/-- C8: a message without a matching pending call whose payload fails to
decode as an update leaves the client state entirely unchanged — no
listener receives anything — and the loop continues with the next
message. -/
theorem receiver_decode_failure_dropped (st : ClientState) (r : Response)
    (rest : List Response) (e : GoError)
    (hnomatch : r.extra = "" ∨ loadCatcher st.catchers r.extra = none)
    (hdec : UnmarshalType r.data = Except.error e) :
    receiverStep st r = st ∧ receiver st (r :: rest) = receiver st rest := by
  have hst : receiverStep st r = st := by
    rcases hnomatch with hx | hload
    · simp [receiverStep, hx, hdec]
    · by_cases hx : r.extra = ""
      · simp [receiverStep, hx, hdec]
      · simp [receiverStep, hx, hload, hdec]
  refine ⟨hst, ?_⟩
  show List.foldl receiverStep (receiverStep st r) rest = List.foldl receiverStep st rest
  rw [hst]

/-- C8 witness: an untagged malformed message against a one-listener
state. -/
theorem receiver_decode_failure_dropped_witness :
    (({ extra := "", data := RawData.malformed 7 } : Response).extra = ""
      ∨ loadCatcher ({ catchers := [], listeners := [{ isActive := true, updates := [] }] }
          : ClientState).catchers "" = none)
    ∧ UnmarshalType (RawData.malformed 7) = Except.error (GoError.callError 7)
    ∧ receiverStep { catchers := [], listeners := [{ isActive := true, updates := [] }] }
        { extra := "", data := RawData.malformed 7 }
      = { catchers := [], listeners := [{ isActive := true, updates := [] }] } :=
  ⟨Or.inl rfl, rfl,
   (receiver_decode_failure_dropped
      { catchers := [], listeners := [{ isActive := true, updates := [] }] }
      { extra := "", data := RawData.malformed 7 } [] (GoError.callError 7)
      (Or.inl rfl) rfl).1⟩

theorem broadcastPass_eq (ls : List Listener) (t : TdType) :
    (broadcastPass ls t).1
      = List.map (fun l => if l.isActive then { l with updates := l.updates ++ [t] } else l) ls
    ∧ (broadcastPass ls t).2 = List.any ls (fun l => !l.isActive) := by
  induction ls with
  | nil => exact ⟨rfl, rfl⟩
  | cons l ls ih =>
      by_cases h : l.isActive
      · constructor <;> simp [broadcastPass, h, ih.1, ih.2]
      · constructor <;> simp [broadcastPass, h, ih.1, ih.2]

/-- C9: a decoded update is delivered, in registry order, exactly to the
listeners whose active flag is true (position-wise: an active listener's
queue gains the update, an inactive listener is untouched), the needGc
flag is raised precisely when some inactive listener was observed, and the
dispatch loop runs the garbage-collection pass if and only if that flag
was raised. -/
theorem receiver_broadcast_gc (st : ClientState) (r : Response) (t : TdType)
    (hdec : UnmarshalType r.data = Except.ok t) :
    (broadcastPass st.listeners t).1
        = List.map (fun l => if l.isActive then { l with updates := l.updates ++ [t] } else l)
            st.listeners
    ∧ (broadcastPass st.listeners t).2 = List.any st.listeners (fun l => !l.isActive)
    ∧ (receiverStep st r).listeners
        = (if (broadcastPass st.listeners t).2
           then gcListeners (broadcastPass st.listeners t).1
           else (broadcastPass st.listeners t).1) := by
  refine ⟨(broadcastPass_eq st.listeners t).1, (broadcastPass_eq st.listeners t).2, ?_⟩
  by_cases hx : r.extra = ""
  · simp [receiverStep, hx, hdec]
  · cases hload : loadCatcher st.catchers r.extra <;>
      simp [receiverStep, hx, hload, hdec]

/-- C9 witness: one active and one inactive listener receiving an untagged
decodable update. -/
theorem receiver_broadcast_gc_witness :
    UnmarshalType (RawData.encoded (TdType.update 1)) = Except.ok (TdType.update 1)
    ∧ (receiverStep
        { catchers := [],
          listeners := [{ isActive := true, updates := [] },
                        { isActive := false, updates := [] }] }
        { extra := "", data := RawData.encoded (TdType.update 1) }).listeners
      = (if (broadcastPass
              [{ isActive := true, updates := [] }, { isActive := false, updates := [] }]
              (TdType.update 1)).2
         then gcListeners (broadcastPass
              [{ isActive := true, updates := [] }, { isActive := false, updates := [] }]
              (TdType.update 1)).1
         else (broadcastPass
              [{ isActive := true, updates := [] }, { isActive := false, updates := [] }]
              (TdType.update 1)).1) :=
  ⟨rfl,
   (receiver_broadcast_gc
      { catchers := [],
        listeners := [{ isActive := true, updates := [] },
                      { isActive := false, updates := [] }] }
      { extra := "", data := RawData.encoded (TdType.update 1) }
      (TdType.update 1) rfl).2.2⟩

end GoTdlib
